import Mathlib

/-!
A verification development for the feast-spark job-submission client
(`feast_spark/client.py`), shallow-embedded in Lean 4.

Pure computations (feature-reference grouping, path joining, Python `or`
truthiness) are translated directly.  Side-effecting steps (staging an
entity DataFrame, issuing an RPC, invoking the local launcher) are recorded
as an explicit trace of `Effect`s, and fallible steps return `Except`.
External collaborators (the feature-store registry, the staging utilities,
the job backend) appear as explicit parameters, mirroring the contracts the
client consumes.
-/

namespace FeastSpark

/-- A single feature of a feature table (only the name matters to the client). -/
structure Feature where
  name : String
deriving DecidableEq, Repr

/-- The physical location variant of a batch source: file-based or
BigQuery-backed (the latter carrying `bigquery_options.table_ref`). -/
inductive SourceKind
  | file (fileUrl : String)
  | bigQuery (tableRef : String)
deriving DecidableEq, Repr

/-- A batch source: its location variant plus its `created_timestamp_column`
(the empty string models Python's falsy "unset" value). -/
structure BatchSource where
  kind : SourceKind
  createdTimestampColumn : String
deriving DecidableEq, Repr

/-- A feature table definition as fetched from the registry: a name, a
declared feature list (in registry order), and one batch source. -/
structure FeatureTable where
  name : String
  features : List Feature
  batchSource : BatchSource
deriving DecidableEq, Repr

/-- `isinstance(source, BigQuerySource)` on a batch source. -/
def isBigQuerySource (s : BatchSource) : Bool :=
  match s.kind with
  | .bigQuery _ => true
  | .file _ => false

/-- `source.bigquery_options.table_ref` (only ever read on BigQuery sources). -/
def bigqueryTableRef (s : BatchSource) : String :=
  match s.kind with
  | .bigQuery r => r
  | .file _ => ""

/-- The caller-supplied entity source: an in-memory pandas DataFrame (opaque
to the client), or an already-staged `FileSource` / `BigQuerySource`. -/
inductive EntitySource
  | dataFrame (df : Nat)
  | fileSource (path : String)
  | bigQuerySource (tableRef : String)
deriving DecidableEq, Repr

/-- Errors surfaced by the client: `NotFoundError` from the registry or job
backend, and Python `AssertionError` from the precondition check. -/
inductive FeastError
  | notFound (what : String)
  | assertionError (message : String)
deriving DecidableEq, Repr

/-- The configuration options the client reads (`feast.constants.ConfigOptions`).
`jobServiceUrl = none` models an unset `JOB_SERVICE_URL` option. -/
structure Config where
  jobServiceUrl : Option String
  sparkStagingLocation : String
  historicalFeatureOutputLocation : String
  historicalFeatureOutputFormat : String
deriving DecidableEq, Repr

/-- `Client._use_job_service`: `self.config.exists(opt.JOB_SERVICE_URL)`. -/
def useJobService (c : Config) : Bool :=
  c.jobServiceUrl.isSome

/-- Python `str.split` with a single-character separator, over the string's
character list; `acc` accumulates the current piece in reverse.  Splitting
always yields at least one (possibly empty) piece, like Python's `split`. -/
def pySplitAux (sep : Char) : List Char → List Char → List (List Char)
  | [], acc => [acc.reverse]
  | c :: cs, acc =>
    if c = sep then acc.reverse :: pySplitAux sep cs []
    else pySplitAux sep cs (c :: acc)

/-- Python `s.split(sep)` for a one-character separator. -/
def pySplit (sep : Char) (s : String) : List String :=
  (pySplitAux sep s.data []).map List.asString

/-- `x.split(":")[0]` — the table name of a feature reference (the substring
before the first colon; the whole string when there is no colon). -/
def tableNameOf (ref : String) : String :=
  (pySplit ':' ref).headD ""

/-- `f.split(":")[-1]` — the feature name of a feature reference (the
substring after the last colon; the whole string when there is no colon). -/
def featureNameOf (ref : String) : String :=
  (pySplit ':' ref).getLastD ""

/-- `itertools.groupby` with a key function, materialized as in
`_get_feature_tables_from_feature_refs`: contiguous runs of equal key,
each paired with its key in first-appearance order. -/
def groupByKey {α β : Type} [DecidableEq β] (key : α → β) : List α → List (β × List α)
  | [] => []
  | x :: xs =>
    match groupByKey key xs with
    | [] => [(key x, [x])]
    | (k, g) :: rest =>
      if key x = k then (k, x :: g) :: rest else (key x, [x]) :: (k, g) :: rest

/-- The per-group body of `_get_feature_tables_from_feature_refs`: fetch each
group's table from the registry (raising `NotFoundError` when absent) and
replace its feature list by the declared features whose names occur among the
group's requested feature names (registry order is preserved by `filter`). -/
def getFeatureTablesFromGroups (registry : String → Option FeatureTable) :
    List (String × List String) → Except FeastError (List FeatureTable)
  | [] => .ok []
  | (tableName, groupedRefs) :: rest =>
    match registry tableName with
    | none => .error (.notFound tableName)
    | some ft =>
      match getFeatureTablesFromGroups registry rest with
      | .error e => .error e
      | .ok tables =>
        .ok ({ ft with
                features := ft.features.filter
                  (fun f => (groupedRefs.map featureNameOf).contains f.name) } :: tables)

/-- `Client._get_feature_tables_from_feature_refs`: group the references into
contiguous runs by table name, then resolve each run against the registry. -/
def getFeatureTablesFromFeatureRefs (registry : String → Option FeatureTable)
    (featureRefs : List String) : Except FeastError (List FeatureTable) :=
  getFeatureTablesFromGroups registry (groupByKey tableNameOf featureRefs)

/-- The observable side effects of a client call, in order: staging an
in-memory entity table (to BigQuery or to the file staging location),
issuing a job-service RPC, or invoking the local launcher.  Each RPC effect
carries exactly the fields the client puts into the request message; each
local effect carries exactly the arguments passed to the launcher. -/
inductive Effect
  | stageToBQ (sourceTableRef : String)
  | stageToFS (stagingLocation : String)
  | rpcGetHistoricalFeatures (featureRefs : List String)
      (project outputFormat outputLocation : String)
  | localRetrievalJob (project outputFormat outputLocation : String)
  | rpcOfflineIngestion (project tableName : String) (startDate endDate : Nat)
  | localOfflineIngestion (project tableName : String) (startDate endDate : Nat)
  | rpcStreamIngestion (project tableName : String)
  | localStreamIngestion (project tableName : String) (extraJars : List String)
  | rpcListJobs (includeTerminated : Bool) (tableName : Option String)
  | localListJobs (includeTerminated : Bool) (tableName : Option String)
  | rpcGetJob (jobId : String)
  | localGetJob (jobId : String)
deriving DecidableEq, Repr

/-- An entity-staging effect (`stage_entities_to_bq` / `stage_entities_to_fs`). -/
def isStagingEffect : Effect → Bool
  | .stageToBQ _ => true
  | .stageToFS _ => true
  | _ => false

/-- A job-service RPC effect (the remote dispatch path). -/
def isRpcEffect : Effect → Bool
  | .rpcGetHistoricalFeatures _ _ _ _ => true
  | .rpcOfflineIngestion _ _ _ _ => true
  | .rpcStreamIngestion _ _ => true
  | .rpcListJobs _ _ => true
  | .rpcGetJob _ => true
  | _ => false

/-- A local-launcher dispatch effect (the local path). -/
def isLocalDispatchEffect : Effect → Bool
  | .localRetrievalJob _ _ _ => true
  | .localOfflineIngestion _ _ _ _ => true
  | .localStreamIngestion _ _ _ => true
  | .localListJobs _ _ => true
  | .localGetJob _ => true
  | _ => false

/-- The output location a dispatch effect submits, if it is a retrieval
dispatch. -/
def effectOutputLocation : Effect → Option String
  | .rpcGetHistoricalFeatures _ _ _ loc => some loc
  | .localRetrievalJob _ _ loc => some loc
  | _ => none

/-- The output location submitted by a trace (first retrieval dispatch). -/
def submittedOutputLocation (effects : List Effect) : Option String :=
  effects.findSome? effectOutputLocation

/-- `os.path.join(base, p)` for two POSIX path components, as used for the
default historical-feature output location: an absolute second component
replaces the first; otherwise the components are joined, inserting a slash
unless the first is empty or already ends in one. -/
def pathJoin (base p : String) : String :=
  if p.data.head? = some '/' then p
  else if base = "" then p
  else if base.data.getLast? = some '/' then base ++ p
  else base ++ "/" ++ p

/-- Python `value or fallback` on an optional string argument: `None` and the
empty string are falsy and select the fallback. -/
def pythonOrString (value : Option String) (fallback : String) : String :=
  match value with
  | none => fallback
  | some s => if s = "" then fallback else s

/-- The outcome of `get_historical_features`: a `RemoteRetrievalJob` built
from the RPC response, or the launcher's local retrieval job. -/
inductive RetrievalResult
  | remoteJob
  | localJob
deriving DecidableEq, Repr

/-- Lines 156-174 of `client.py`: the entity-staging block of
`get_historical_features`.  A pandas DataFrame is staged to BigQuery when any
feature source is a BigQuery source — using the first such source's
`bigquery_options.table_ref` (`[... if isinstance(source, BigQuerySource)][0]`,
from which the external staging utility derives project and dataset) — and
otherwise to the configured Spark staging location; an entity source that is
already a `FileSource` or `BigQuerySource` is left untouched. -/
def stagingEffectsFor (c : Config) (featureSources : List BatchSource) :
    EntitySource → List Effect
  | .dataFrame _ =>
    match featureSources.filter isBigQuerySource with
    | firstBqSource :: _ => [.stageToBQ (bigqueryTableRef firstBqSource)]
    | [] => [.stageToFS c.sparkStagingLocation]
  | .fileSource _ => []
  | .bigQuerySource _ => []

/-- `Client.get_historical_features`.  `freshUuid` stands for the
`str(uuid.uuid4())` drawn by this call.  Returns the effect trace and the
result: resolution errors and the created-timestamp assertion abort the call
with an empty trace; otherwise the staging effects (if any) are followed by
exactly one dispatch effect chosen by `_use_job_service`. -/
def getHistoricalFeatures (c : Config) (registry : String → Option FeatureTable)
    (project : String) (freshUuid : String) (featureRefs : List String)
    (entitySource : EntitySource) (outputLocation : Option String) :
    List Effect × Except FeastError RetrievalResult :=
  match getFeatureTablesFromFeatureRefs registry featureRefs with
  | .error e => ([], .error e)
  | .ok featureTables =>
    if featureTables.all (fun ft => ft.batchSource.createdTimestampColumn != "") then
      let outputLoc :=
        match outputLocation with
        | some loc => loc
        | none => pathJoin c.historicalFeatureOutputLocation freshUuid
      let outputFormat := c.historicalFeatureOutputFormat
      let featureSources := featureTables.map (fun ft => ft.batchSource)
      let stagingEffects := stagingEffectsFor c featureSources entitySource
      if useJobService c then
        (stagingEffects ++
           [.rpcGetHistoricalFeatures featureRefs project outputFormat outputLoc],
         .ok .remoteJob)
      else
        (stagingEffects ++ [.localRetrievalJob project outputFormat outputLoc],
         .ok .localJob)
    else
      ([], .error (.assertionError "created_timestamp_column"))

/-- `Client.start_offline_to_online_ingestion` (datetimes as numeric
timestamps): local launcher call when the job service is unset, otherwise an
RPC whose request carries the project, the table name and the time window. -/
def startOfflineToOnlineIngestion (c : Config) (project : String)
    (featureTable : FeatureTable) (start finish : Nat) : List Effect :=
  if !useJobService c then
    [.localOfflineIngestion project featureTable.name start finish]
  else
    [.rpcOfflineIngestion project featureTable.name start finish]

/-- `Client.start_stream_to_online_ingestion`: in local mode the launcher gets
`project or self._feast.project` and `extra_jars or []`; in remote mode the
request carries only `self._feast.project` and the table name. -/
def startStreamToOnlineIngestion (c : Config) (configuredProject : String)
    (featureTable : FeatureTable) (extraJars : Option (List String))
    (project : Option String) : List Effect :=
  if !useJobService c then
    [.localStreamIngestion (pythonOrString project configuredProject)
       featureTable.name (extraJars.getD [])]
  else
    [.rpcStreamIngestion configuredProject featureTable.name]

/-- `Client.list_jobs`: local launcher enumeration or a `ListJobs` RPC. -/
def listJobs (c : Config) (includeTerminated : Bool) (tableName : Option String) :
    List Effect :=
  if !useJobService c then
    [.localListJobs includeTerminated tableName]
  else
    [.rpcListJobs includeTerminated tableName]

/-- Lookup of a job id in a backend's job table. -/
def lookupJob (jobs : List (String × Nat)) (jobId : String) : Except FeastError Nat :=
  match jobs.find? (fun kv => kv.1 = jobId) with
  | some kv => .ok kv.2
  | none => .error (.notFound jobId)

/-- Modelled from the spec: the local launcher's `get_job_by_id`
(`feast_spark.pyspark.launcher`, not under `src/`) "fails with `NotFoundError`"
for an id unknown to its job table, echoing the id, and otherwise returns the
job handle. -/
def launcherGetJobById (localJobs : List (String × Nat)) (jobId : String) :
    Except FeastError Nat :=
  lookupJob localJobs jobId

/-- Modelled from the spec: the job service's `GetJob` RPC (an external
collaborator) raises `NotFoundError` for an unknown job id, echoing the id;
the client surfaces the error unchanged. -/
def jobServiceGetJob (serviceJobs : List (String × Nat)) (jobId : String) :
    Except FeastError Nat :=
  lookupJob serviceJobs jobId

/-- `Client.get_job_by_id`: local launcher lookup or a `GetJob` RPC, over the
active backend's job table; errors propagate (nothing is caught). -/
def getJobById (c : Config) (backendJobs : List (String × Nat)) (jobId : String) :
    List Effect × Except FeastError Nat :=
  if !useJobService c then
    ([.localGetJob jobId], launcherGetJobById backendJobs jobId)
  else
    ([.rpcGetJob jobId], jobServiceGetJob backendJobs jobId)

/-- The mutable attributes of a `Client` relevant to the `_job_service`
property, plus a count of gRPC channels created.  `jobServiceStub` is the
`_job_service_stub` attribute set to `None` in `__init__`;
`jobServiceServiceStub` is the distinct `_job_service_service_stub` attribute
that line 89 actually assigns.  A stub is identified by the (1-based) index of
the channel it was built on. -/
structure ClientState where
  jobServiceStub : Option Nat
  jobServiceServiceStub : Option Nat
  channelsCreated : Nat
deriving DecidableEq, Repr

/-- `Client.__init__`: `self._job_service_stub = None` (no channel yet). -/
def clientInit : ClientState :=
  { jobServiceStub := none, jobServiceServiceStub := none, channelsCreated := 0 }

/-- The `Client._job_service` property: returns `None` when the job service is
disabled; otherwise, when `self._job_service_stub` is falsy (it is never
assigned, so this always holds), creates a new channel and assigns the stub to
`self._job_service_service_stub`, which is then returned. -/
def jobServiceProperty (c : Config) (s : ClientState) : ClientState × Option Nat :=
  if !useJobService c then (s, none)
  else
    let s' :=
      if s.jobServiceStub.isNone then
        { s with
            channelsCreated := s.channelsCreated + 1,
            jobServiceServiceStub := some (s.channelsCreated + 1) }
      else s
    (s', s'.jobServiceServiceStub)

/-- A registry fixture mirroring the spec's scenario: table `bookings` with
declared features `bookings_7d`, `bookings_14d`, `bookings_30d` over a file
batch source, and table `driver` with `conv_rate`, `acc_rate`. -/
def bookingsTable : FeatureTable :=
  { name := "bookings"
    features := [⟨"bookings_7d"⟩, ⟨"bookings_14d"⟩, ⟨"bookings_30d"⟩]
    batchSource := { kind := .file "gs://bucket/bookings", createdTimestampColumn := "created" } }

def driverTable : FeatureTable :=
  { name := "driver"
    features := [⟨"conv_rate"⟩, ⟨"acc_rate"⟩]
    batchSource := { kind := .bigQuery "gcp-project:dataset.driver", createdTimestampColumn := "created" } }

def exampleRegistry : String → Option FeatureTable := fun n =>
  if n = "bookings" then some bookingsTable
  else if n = "driver" then some driverTable
  else none

/-- A config fixture with the job service unset (local mode). -/
def localConfig : Config :=
  { jobServiceUrl := none
    sparkStagingLocation := "gs://staging/"
    historicalFeatureOutputLocation := "gs://output"
    historicalFeatureOutputFormat := "parquet" }

/-- A config fixture with the job service set (remote mode). -/
def remoteConfig : Config :=
  { localConfig with jobServiceUrl := some "jobservice.example:6568" }

/-- A table fixture whose batch source has no created-timestamp column. -/
def noTimestampTable : FeatureTable :=
  { name := "clicks"
    features := [⟨"clicks_1d"⟩]
    batchSource := { kind := .file "gs://bucket/clicks", createdTimestampColumn := "" } }

/-- A registry fixture containing only `noTimestampTable`. -/
def noTimestampRegistry : String → Option FeatureTable := fun n =>
  if n = "clicks" then some noTimestampTable else none

end FeastSpark

namespace FeastSpark

theorem groupByKey_join {α β : Type} [DecidableEq β] (key : α → β) (l : List α) :
    ((groupByKey key l).map Prod.snd).flatten = l := by
  induction l with
  | nil => rfl
  | cons x xs ih =>
    simp only [groupByKey]
    cases h : groupByKey key xs with
    | nil =>
      rw [h] at ih
      simp at ih
      simp [← ih]
    | cons p rest =>
      obtain ⟨k, g⟩ := p
      rw [h] at ih
      by_cases hk : key x = k
      · simp only [hk, if_pos rfl]
        simp only [List.map_cons, List.flatten_cons] at ih ⊢
        simp [← ih]
      · simp only [if_neg hk]
        simp only [List.map_cons, List.flatten_cons] at ih ⊢
        simp [← ih]

theorem groupByKey_mem {α β : Type} [DecidableEq β] (key : α → β) (l : List α)
    (p : β × List α) (hp : p ∈ groupByKey key l) :
    p.2 ≠ [] ∧ ∀ a ∈ p.2, key a = p.1 := by
  induction l generalizing p with
  | nil => simp [groupByKey] at hp
  | cons x xs ih =>
    simp only [groupByKey] at hp
    cases h : groupByKey key xs with
    | nil =>
      rw [h] at hp
      simp at hp
      subst hp
      refine ⟨by simp, ?_⟩
      intro a ha
      simp at ha
      subst ha
      rfl
    | cons q rest =>
      obtain ⟨k, g⟩ := q
      rw [h] at hp
      by_cases hk : key x = k
      · simp only [hk, if_pos rfl] at hp
        rcases List.mem_cons.mp hp with hhead | htail
        · subst hhead
          have hg := ih (k, g) (h ▸ List.mem_cons_self _ _)
          refine ⟨by simp, ?_⟩
          intro a ha
          rcases List.mem_cons.mp ha with rfl | hmem
          · exact hk
          · exact hg.2 a hmem
        · exact ih p (h ▸ List.mem_cons_of_mem _ htail)
      · simp only [if_neg hk] at hp
        rcases List.mem_cons.mp hp with hhead | htail
        · subst hhead
          refine ⟨by simp, ?_⟩
          intro a ha
          simp at ha
          subst ha
          rfl
        · exact ih p (h ▸ htail)

theorem groupByKey_chain {α β : Type} [DecidableEq β] (key : α → β) (l : List α) :
    List.Chain' (fun p q => p.1 ≠ q.1) (groupByKey key l) := by
  induction l with
  | nil => simp [groupByKey]
  | cons x xs ih =>
    simp only [groupByKey]
    cases h : groupByKey key xs with
    | nil => simp
    | cons q rest =>
      obtain ⟨k, g⟩ := q
      rw [h] at ih
      by_cases hk : key x = k
      · subst hk
        dsimp only
        rw [if_pos rfl]
        cases rest with
        | nil => simp
        | cons r rest2 =>
          rw [List.chain'_cons] at ih ⊢
          exact ih
      · dsimp only
        rw [if_neg hk, List.chain'_cons]
        exact ⟨hk, ih⟩

theorem getFeatureTablesFromGroups_spec (registry : String → Option FeatureTable)
    (groups : List (String × List String)) (tables : List FeatureTable)
    (h : getFeatureTablesFromGroups registry groups = .ok tables) :
    tables.length = groups.length ∧
    ∀ i (hi : i < groups.length) (hti : i < tables.length),
      ∃ ft, registry (groups.get ⟨i, hi⟩).1 = some ft ∧
        tables.get ⟨i, hti⟩ =
          { ft with
              features := ft.features.filter
                (fun f => (((groups.get ⟨i, hi⟩).2.map featureNameOf)).contains f.name) } := by
  induction groups generalizing tables with
  | nil =>
    simp only [getFeatureTablesFromGroups] at h
    cases h
    exact ⟨rfl, fun i hi => by simp at hi⟩
  | cons g rest ih =>
    obtain ⟨tableName, groupedRefs⟩ := g
    simp only [getFeatureTablesFromGroups] at h
    cases hreg : registry tableName with
    | none => rw [hreg] at h; cases h
    | some ft =>
      rw [hreg] at h
      cases hrest : getFeatureTablesFromGroups registry rest with
      | error e => rw [hrest] at h; cases h
      | ok restTables =>
        rw [hrest] at h
        cases h
        obtain ⟨hlen, hpoint⟩ := ih restTables hrest
        refine ⟨by simp [hlen], ?_⟩
        intro i hi hti
        cases i with
        | zero => exact ⟨ft, hreg, rfl⟩
        | succ j =>
          have hj : j < rest.length := by simpa using hi
          have htj : j < restTables.length := by simpa using hti
          exact hpoint j hj htj

theorem stagingEffectsFor_mem (c : Config) (featureSources : List BatchSource)
    (es : EntitySource) (e : Effect) (he : e ∈ stagingEffectsFor c featureSources es) :
    isStagingEffect e = true ∧ isRpcEffect e = false ∧
    isLocalDispatchEffect e = false ∧ effectOutputLocation e = none := by
  cases es with
  | dataFrame df =>
    simp only [stagingEffectsFor] at he
    cases hf : featureSources.filter isBigQuerySource with
    | nil =>
      rw [hf] at he
      simp at he
      subst he
      exact ⟨rfl, rfl, rfl, rfl⟩
    | cons b rest =>
      rw [hf] at he
      simp at he
      subst he
      exact ⟨rfl, rfl, rfl, rfl⟩
  | fileSource p => simp [stagingEffectsFor] at he
  | bigQuerySource t => simp [stagingEffectsFor] at he

theorem findSome?_append_of_none {α β : Type} (f : α → Option β) (l1 l2 : List α)
    (h : ∀ a ∈ l1, f a = none) :
    (l1 ++ l2).findSome? f = l2.findSome? f := by
  induction l1 with
  | nil => rfl
  | cons x xs ih =>
    rw [List.cons_append, List.findSome?_cons]
    rw [h x (List.mem_cons_self _ _)]
    exact ih (fun a ha => h a (List.mem_cons_of_mem _ ha))

theorem getHistoricalFeatures_ok_shape (c : Config)
    (registry : String → Option FeatureTable) (project freshUuid : String)
    (refs : List String) (es : EntitySource) (oloc : Option String)
    (effs : List Effect) (r : RetrievalResult)
    (h : getHistoricalFeatures c registry project freshUuid refs es oloc = (effs, .ok r)) :
    ∃ tables, getFeatureTablesFromFeatureRefs registry refs = .ok tables ∧
      tables.all (fun ft => ft.batchSource.createdTimestampColumn != "") = true ∧
      effs = stagingEffectsFor c (tables.map (fun ft => ft.batchSource)) es ++
        [if useJobService c then
           Effect.rpcGetHistoricalFeatures refs project c.historicalFeatureOutputFormat
             (oloc.getD (pathJoin c.historicalFeatureOutputLocation freshUuid))
         else
           Effect.localRetrievalJob project c.historicalFeatureOutputFormat
             (oloc.getD (pathJoin c.historicalFeatureOutputLocation freshUuid))] := by
  unfold getHistoricalFeatures at h
  cases hres : getFeatureTablesFromFeatureRefs registry refs with
  | error e => rw [hres] at h; simp at h
  | ok tables =>
    rw [hres] at h
    dsimp only at h
    by_cases hall : (tables.all fun ft => ft.batchSource.createdTimestampColumn != "") = true
    · rw [if_pos hall] at h
      refine ⟨tables, rfl, hall, ?_⟩
      by_cases hjs : useJobService c = true
      · rw [if_pos hjs] at h
        rw [if_pos hjs]
        have h1 := congrArg Prod.fst h
        simp only at h1
        rw [← h1]
        cases oloc <;> rfl
      · rw [if_neg hjs] at h
        rw [if_neg hjs]
        have h1 := congrArg Prod.fst h
        simp only at h1
        rw [← h1]
        cases oloc <;> rfl
    · rw [if_neg hall] at h
      simp at h

theorem getFeatureTablesFromGroups_names (registry : String → Option FeatureTable)
    (groups : List (String × List String)) (tables : List FeatureTable)
    (hwf : ∀ n ft, registry n = some ft → ft.name = n)
    (h : getFeatureTablesFromGroups registry groups = .ok tables) :
    tables.map (fun t => t.name) = groups.map Prod.fst := by
  induction groups generalizing tables with
  | nil =>
    simp only [getFeatureTablesFromGroups] at h
    cases h
    rfl
  | cons g rest ih =>
    obtain ⟨tableName, groupedRefs⟩ := g
    simp only [getFeatureTablesFromGroups] at h
    cases hreg : registry tableName with
    | none => rw [hreg] at h; cases h
    | some ft =>
      rw [hreg] at h
      cases hrest : getFeatureTablesFromGroups registry rest with
      | error e => rw [hrest] at h; cases h
      | ok restTables =>
        rw [hrest] at h
        cases h
        simp only [List.map_cons]
        rw [ih restTables hrest]
        have hname : ft.name = tableName := hwf _ _ hreg
        simp [hname]

theorem getHistoricalFeatures_effects (c : Config)
    (registry : String → Option FeatureTable) (project freshUuid : String)
    (refs : List String) (es : EntitySource) (oloc : Option String)
    (tables : List FeatureTable)
    (hres : getFeatureTablesFromFeatureRefs registry refs = .ok tables)
    (hts : tables.all (fun ft => ft.batchSource.createdTimestampColumn != "") = true) :
    (getHistoricalFeatures c registry project freshUuid refs es oloc).1 =
      stagingEffectsFor c (tables.map (fun ft => ft.batchSource)) es ++
        [if useJobService c then
           Effect.rpcGetHistoricalFeatures refs project c.historicalFeatureOutputFormat
             (oloc.getD (pathJoin c.historicalFeatureOutputLocation freshUuid))
         else
           Effect.localRetrievalJob project c.historicalFeatureOutputFormat
             (oloc.getD (pathJoin c.historicalFeatureOutputLocation freshUuid))] := by
  unfold getHistoricalFeatures
  rw [hres]
  dsimp only
  rw [if_pos hts]
  cases useJobService c <;> cases oloc <;> simp

/-- C1: `_get_feature_tables_from_feature_refs` partitions its input into
contiguous runs sharing a table name — the runs concatenate back to the input,
every reference in a run has the run's table name, runs are nonempty and
maximal (adjacent runs have distinct table names) — and returns one feature
table per run, whose feature list is the registry's declared feature list
filtered, in registry order, to the feature names requested in that run. -/
theorem c1_resolver_partitions_and_filters
    (registry : String → Option FeatureTable) (refs : List String)
    (tables : List FeatureTable)
    (h : getFeatureTablesFromFeatureRefs registry refs = .ok tables) :
    (((groupByKey tableNameOf refs).map Prod.snd).flatten = refs) ∧
    (∀ p ∈ groupByKey tableNameOf refs, p.2 ≠ [] ∧ ∀ r ∈ p.2, tableNameOf r = p.1) ∧
    List.Chain' (fun p q => p.1 ≠ q.1) (groupByKey tableNameOf refs) ∧
    tables.length = (groupByKey tableNameOf refs).length ∧
    (∀ i (hi : i < (groupByKey tableNameOf refs).length) (hti : i < tables.length),
      ∃ ft, registry ((groupByKey tableNameOf refs).get ⟨i, hi⟩).1 = some ft ∧
        tables.get ⟨i, hti⟩ =
          { ft with
              features := ft.features.filter
                (fun f => ((((groupByKey tableNameOf refs).get ⟨i, hi⟩).2).map
                    featureNameOf).contains f.name) }) := by
  obtain ⟨hlen, hpt⟩ := getFeatureTablesFromGroups_spec registry _ tables h
  exact ⟨groupByKey_join _ _, fun p hp => groupByKey_mem _ _ p hp,
    groupByKey_chain _ _, hlen, hpt⟩

/-- Witness for C1 at the spec's scenario: two runs, `bookings` keeping
`bookings_7d, bookings_14d` and `driver` keeping `conv_rate`. -/
theorem c1_resolver_partitions_and_filters_witness :
    getFeatureTablesFromFeatureRefs exampleRegistry
        ["bookings:bookings_7d", "bookings:bookings_14d", "driver:conv_rate"] =
      .ok [{ bookingsTable with features := [⟨"bookings_7d"⟩, ⟨"bookings_14d"⟩] },
           { driverTable with features := [⟨"conv_rate"⟩] }] ∧
    ([{ bookingsTable with features := [⟨"bookings_7d"⟩, ⟨"bookings_14d"⟩] },
      { driverTable with features := [⟨"conv_rate"⟩] }] : List FeatureTable).length =
      (groupByKey tableNameOf
        ["bookings:bookings_7d", "bookings:bookings_14d", "driver:conv_rate"]).length := by
  have h : getFeatureTablesFromFeatureRefs exampleRegistry
      ["bookings:bookings_7d", "bookings:bookings_14d", "driver:conv_rate"] =
      .ok [{ bookingsTable with features := [⟨"bookings_7d"⟩, ⟨"bookings_14d"⟩] },
           { driverTable with features := [⟨"conv_rate"⟩] }] := rfl
  exact ⟨h, (c1_resolver_partitions_and_filters exampleRegistry _ _ h).2.2.2.1⟩

/-- C6: the resolver performs no global de-duplication — it returns one
definition per contiguous group, so the result's table names are exactly the
groups' keys in order, and a table name whose references are non-adjacent
appears once per contiguous group of that name. -/
theorem c6_no_global_dedup (registry : String → Option FeatureTable)
    (hwf : ∀ n ft, registry n = some ft → ft.name = n)
    (refs : List String) (tables : List FeatureTable)
    (h : getFeatureTablesFromFeatureRefs registry refs = .ok tables) :
    tables.map (fun t => t.name) = (groupByKey tableNameOf refs).map Prod.fst := by
  exact getFeatureTablesFromGroups_names registry _ tables hwf h

/-- Witness for C6: non-adjacent references to `bookings` yield two separate
`bookings` definitions around the `driver` one. -/
theorem c6_no_global_dedup_witness :
    getFeatureTablesFromFeatureRefs exampleRegistry
        ["bookings:bookings_7d", "driver:conv_rate", "bookings:bookings_14d"] =
      .ok [{ bookingsTable with features := [⟨"bookings_7d"⟩] },
           { driverTable with features := [⟨"conv_rate"⟩] },
           { bookingsTable with features := [⟨"bookings_14d"⟩] }] ∧
    ([{ bookingsTable with features := [⟨"bookings_7d"⟩] },
      { driverTable with features := [⟨"conv_rate"⟩] },
      { bookingsTable with features := [⟨"bookings_14d"⟩] }] : List FeatureTable).map
        (fun t => t.name) = ["bookings", "driver", "bookings"] := by
  have hwf : ∀ n ft, exampleRegistry n = some ft → ft.name = n := by
    intro n ft hreg
    unfold exampleRegistry at hreg
    by_cases hb : n = "bookings"
    · subst hb
      rw [if_pos rfl] at hreg
      injection hreg with h2
      subst h2
      rfl
    · rw [if_neg hb] at hreg
      by_cases hd : n = "driver"
      · subst hd
        rw [if_pos rfl] at hreg
        injection hreg with h2
        subst h2
        rfl
      · rw [if_neg hd] at hreg
        cases hreg
  have h : getFeatureTablesFromFeatureRefs exampleRegistry
      ["bookings:bookings_7d", "driver:conv_rate", "bookings:bookings_14d"] =
      .ok [{ bookingsTable with features := [⟨"bookings_7d"⟩] },
           { driverTable with features := [⟨"conv_rate"⟩] },
           { bookingsTable with features := [⟨"bookings_14d"⟩] }] := rfl
  exact ⟨h, (c6_no_global_dedup exampleRegistry hwf _ _ h).trans rfl⟩

/-- C3: when some resolved feature table's batch source lacks a
`created_timestamp_column`, `get_historical_features` fails the assertion
before anything else: the result is the assertion error with an empty effect
trace — no staging, no RPC and no local submission occurred. -/
theorem c3_assert_precedes_staging_and_dispatch (c : Config)
    (registry : String → Option FeatureTable) (project freshUuid : String)
    (refs : List String) (es : EntitySource) (oloc : Option String)
    (tables : List FeatureTable) (ft : FeatureTable)
    (hres : getFeatureTablesFromFeatureRefs registry refs = .ok tables)
    (hft : ft ∈ tables) (hmiss : ft.batchSource.createdTimestampColumn = "") :
    getHistoricalFeatures c registry project freshUuid refs es oloc =
      ([], .error (.assertionError "created_timestamp_column")) := by
  have hall : (tables.all fun t => t.batchSource.createdTimestampColumn != "") = false := by
    rw [List.all_eq_false]
    exact ⟨ft, hft, by simp [hmiss]⟩
  unfold getHistoricalFeatures
  rw [hres]
  dsimp only
  rw [if_neg (by simp [hall])]

/-- Witness for C3: a retrieval over a table whose batch source has an empty
created-timestamp column aborts with the assertion error and an empty trace. -/
theorem c3_assert_precedes_staging_and_dispatch_witness :
    getHistoricalFeatures localConfig noTimestampRegistry "proj" "uuid-1"
        ["clicks:clicks_1d"] (.dataFrame 0) none =
      ([], .error (.assertionError "created_timestamp_column")) := by
  have hres : getFeatureTablesFromFeatureRefs noTimestampRegistry ["clicks:clicks_1d"] =
      .ok [{ noTimestampTable with features := [⟨"clicks_1d"⟩] }] := rfl
  exact c3_assert_precedes_staging_and_dispatch localConfig noTimestampRegistry "proj"
    "uuid-1" ["clicks:clicks_1d"] (.dataFrame 0) none _ _ hres
    (List.mem_singleton.mpr rfl) rfl

/-- C2: the entity-staging decision of `get_historical_features`.  When the
entity source is an in-memory DataFrame: if any resolved table's batch source
is a BigQuery source, the trace's only staging effect targets the first such
source in definition order (never the file staging location); otherwise the
only staging effect targets the configured Spark staging location.  An entity
source that is already a file or BigQuery source produces no staging effect. -/
theorem c2_entity_staging_decision (c : Config)
    (registry : String → Option FeatureTable) (project freshUuid : String)
    (refs : List String) (oloc : Option String) (tables : List FeatureTable) (df : Nat)
    (hres : getFeatureTablesFromFeatureRefs registry refs = .ok tables)
    (hts : tables.all (fun ft => ft.batchSource.createdTimestampColumn != "") = true) :
    (∀ firstBqSource rest,
      (tables.map (fun ft => ft.batchSource)).filter isBigQuerySource =
          firstBqSource :: rest →
      (getHistoricalFeatures c registry project freshUuid refs
          (.dataFrame df) oloc).1.filter isStagingEffect =
        [.stageToBQ (bigqueryTableRef firstBqSource)]) ∧
    ((tables.map (fun ft => ft.batchSource)).filter isBigQuerySource = [] →
      (getHistoricalFeatures c registry project freshUuid refs
          (.dataFrame df) oloc).1.filter isStagingEffect =
        [.stageToFS c.sparkStagingLocation]) ∧
    (∀ path,
      (getHistoricalFeatures c registry project freshUuid refs
          (.fileSource path) oloc).1.filter isStagingEffect = []) ∧
    (∀ tref,
      (getHistoricalFeatures c registry project freshUuid refs
          (.bigQuerySource tref) oloc).1.filter isStagingEffect = []) := by
  have hdisp : ∀ es : EntitySource,
      (getHistoricalFeatures c registry project freshUuid refs es oloc).1.filter
          isStagingEffect =
        (stagingEffectsFor c (tables.map (fun ft => ft.batchSource)) es).filter
          isStagingEffect := by
    intro es
    rw [getHistoricalFeatures_effects c registry project freshUuid refs es oloc tables
      hres hts]
    cases useJobService c <;> simp [List.filter_append, isStagingEffect]
  refine ⟨?_, ?_, ?_, ?_⟩
  · intro firstBqSource rest hf
    rw [hdisp (.dataFrame df)]
    simp [stagingEffectsFor, hf, isStagingEffect]
  · intro hf
    rw [hdisp (.dataFrame df)]
    simp [stagingEffectsFor, hf, isStagingEffect]
  · intro path
    rw [hdisp (.fileSource path)]
    rfl
  · intro tref
    rw [hdisp (.bigQuerySource tref)]
    rfl

/-- Witness for C2: with a file-backed `bookings` table and a BigQuery-backed
`driver` table, a DataFrame entity source is staged to the `driver` source's
table reference. -/
theorem c2_entity_staging_decision_witness :
    (getHistoricalFeatures remoteConfig exampleRegistry "proj" "uuid-1"
        ["bookings:bookings_7d", "driver:conv_rate"] (.dataFrame 0) none).1.filter
        isStagingEffect = [.stageToBQ "gcp-project:dataset.driver"] := by
  have hres : getFeatureTablesFromFeatureRefs exampleRegistry
      ["bookings:bookings_7d", "driver:conv_rate"] =
      .ok [{ bookingsTable with features := [⟨"bookings_7d"⟩] },
           { driverTable with features := [⟨"conv_rate"⟩] }] := rfl
  exact ((c2_entity_staging_decision remoteConfig exampleRegistry "proj" "uuid-1"
      ["bookings:bookings_7d", "driver:conv_rate"] none _ 0 hres rfl).1
    driverTable.batchSource [] rfl).trans rfl

/-- C4: every operation takes the remote RPC path exactly when the
job-service URL option is set, and the local launcher path exactly when it is
absent — with no per-call override. -/
theorem c4_mode_selection (c : Config) (registry : String → Option FeatureTable)
    (project freshUuid : String) (refs : List String) (es : EntitySource)
    (oloc : Option String) (effs : List Effect) (r : RetrievalResult)
    (ft : FeatureTable) (s e : Nat) (extraJars : Option (List String))
    (p : Option String) (it : Bool) (tn : Option String)
    (backendJobs : List (String × Nat)) (jobId : String)
    (hghf : getHistoricalFeatures c registry project freshUuid refs es oloc =
      (effs, .ok r)) :
    (effs.any isRpcEffect = c.jobServiceUrl.isSome ∧
     effs.any isLocalDispatchEffect = !c.jobServiceUrl.isSome) ∧
    ((startOfflineToOnlineIngestion c project ft s e).any isRpcEffect =
        c.jobServiceUrl.isSome ∧
     (startOfflineToOnlineIngestion c project ft s e).any isLocalDispatchEffect =
        !c.jobServiceUrl.isSome) ∧
    ((startStreamToOnlineIngestion c project ft extraJars p).any isRpcEffect =
        c.jobServiceUrl.isSome ∧
     (startStreamToOnlineIngestion c project ft extraJars p).any isLocalDispatchEffect =
        !c.jobServiceUrl.isSome) ∧
    ((listJobs c it tn).any isRpcEffect = c.jobServiceUrl.isSome ∧
     (listJobs c it tn).any isLocalDispatchEffect = !c.jobServiceUrl.isSome) ∧
    ((getJobById c backendJobs jobId).1.any isRpcEffect = c.jobServiceUrl.isSome ∧
     (getJobById c backendJobs jobId).1.any isLocalDispatchEffect =
        !c.jobServiceUrl.isSome) := by
  obtain ⟨tables, hres, hts, heff⟩ :=
    getHistoricalFeatures_ok_shape c registry project freshUuid refs es oloc effs r hghf
  have hstagRpc :
      (stagingEffectsFor c (tables.map (fun ft => ft.batchSource)) es).any isRpcEffect =
        false := by
    rw [List.any_eq_false]
    intro x hx
    simp [(stagingEffectsFor_mem c _ es x hx).2.1]
  have hstagLocal :
      (stagingEffectsFor c (tables.map (fun ft => ft.batchSource)) es).any
          isLocalDispatchEffect = false := by
    rw [List.any_eq_false]
    intro x hx
    simp [(stagingEffectsFor_mem c _ es x hx).2.2.1]
  refine ⟨⟨?_, ?_⟩, ?_, ?_, ?_, ?_⟩
  · subst heff
    rw [List.any_append, hstagRpc]
    cases hjs : c.jobServiceUrl.isSome <;>
      simp [useJobService, hjs, isRpcEffect]
  · subst heff
    rw [List.any_append, hstagLocal]
    cases hjs : c.jobServiceUrl.isSome <;>
      simp [useJobService, hjs, isLocalDispatchEffect]
  · cases hjs : c.jobServiceUrl.isSome <;>
      simp [startOfflineToOnlineIngestion, useJobService, hjs, isRpcEffect,
        isLocalDispatchEffect]
  · cases hjs : c.jobServiceUrl.isSome <;>
      simp [startStreamToOnlineIngestion, useJobService, hjs, isRpcEffect,
        isLocalDispatchEffect]
  · cases hjs : c.jobServiceUrl.isSome <;>
      simp [listJobs, useJobService, hjs, isRpcEffect, isLocalDispatchEffect]
  · cases hjs : c.jobServiceUrl.isSome <;>
      simp [getJobById, useJobService, hjs, isRpcEffect, isLocalDispatchEffect]

/-- Witness for C4 at a local-mode retrieval call: the trace has no RPC
effect and exactly a local dispatch effect. -/
theorem c4_mode_selection_witness :
    ([Effect.localRetrievalJob "proj" "parquet" "gs://out/loc"].any isRpcEffect =
      localConfig.jobServiceUrl.isSome) ∧
    ([Effect.localRetrievalJob "proj" "parquet" "gs://out/loc"].any
        isLocalDispatchEffect = !localConfig.jobServiceUrl.isSome) := by
  have hghf : getHistoricalFeatures localConfig exampleRegistry "proj" "uuid-1"
      ["driver:conv_rate"] (.bigQuerySource "bq:ds.entities") (some "gs://out/loc") =
      ([Effect.localRetrievalJob "proj" "parquet" "gs://out/loc"], .ok .localJob) := rfl
  exact (c4_mode_selection localConfig exampleRegistry "proj" "uuid-1"
    ["driver:conv_rate"] (.bigQuerySource "bq:ds.entities") (some "gs://out/loc")
    _ _ bookingsTable 0 1 none none true none [] "job-1" hghf).1

theorem string_append_left_cancel {s t u : String} (h : s ++ t = s ++ u) : t = u := by
  have hd := congrArg String.data h
  simp only [String.data_append] at hd
  exact String.ext (List.append_cancel_left hd)

theorem pathJoin_right_injective (base : String) {p q : String}
    (hp : p.data.head? ≠ some '/') (hq : q.data.head? ≠ some '/') (hpq : p ≠ q) :
    pathJoin base p ≠ pathJoin base q := by
  unfold pathJoin
  rw [if_neg hp, if_neg hq]
  by_cases hb : base = ""
  · rw [if_pos hb, if_pos hb]
    exact hpq
  · rw [if_neg hb, if_neg hb]
    by_cases he : base.data.getLast? = some '/'
    · rw [if_pos he, if_pos he]
      intro hcontra
      exact hpq (string_append_left_cancel hcontra)
    · rw [if_neg he, if_neg he]
      intro hcontra
      exact hpq (string_append_left_cancel hcontra)

theorem getHistoricalFeatures_ok_outputLocation (c : Config)
    (registry : String → Option FeatureTable) (project freshUuid : String)
    (refs : List String) (es : EntitySource) (effs : List Effect)
    (r : RetrievalResult)
    (h : getHistoricalFeatures c registry project freshUuid refs es none =
      (effs, .ok r)) :
    submittedOutputLocation effs =
      some (pathJoin c.historicalFeatureOutputLocation freshUuid) := by
  obtain ⟨tables, hres, hts, heff⟩ :=
    getHistoricalFeatures_ok_shape c registry project freshUuid refs es none effs r h
  subst heff
  unfold submittedOutputLocation
  rw [findSome?_append_of_none _ _ _
    (fun e he => (stagingEffectsFor_mem c _ es e he).2.2.2)]
  cases useJobService c <;> simp [List.findSome?_cons, effectOutputLocation]

/-- C7: two `get_historical_features` calls with identical inputs, no
caller-supplied output location and distinct freshly drawn ids submit distinct
output locations, each being the configured base location joined with the
fresh id. -/
theorem c7_fresh_output_locations (c : Config)
    (registry : String → Option FeatureTable) (project : String)
    (refs : List String) (es : EntitySource) (u1 u2 : String)
    (e1 e2 : List Effect) (r1 r2 : RetrievalResult)
    (h1 : getHistoricalFeatures c registry project u1 refs es none = (e1, .ok r1))
    (h2 : getHistoricalFeatures c registry project u2 refs es none = (e2, .ok r2))
    (hne : u1 ≠ u2) (hs1 : u1.data.head? ≠ some '/')
    (hs2 : u2.data.head? ≠ some '/') :
    submittedOutputLocation e1 =
      some (pathJoin c.historicalFeatureOutputLocation u1) ∧
    submittedOutputLocation e2 =
      some (pathJoin c.historicalFeatureOutputLocation u2) ∧
    submittedOutputLocation e1 ≠ submittedOutputLocation e2 := by
  have o1 := getHistoricalFeatures_ok_outputLocation c registry project u1 refs es e1 r1 h1
  have o2 := getHistoricalFeatures_ok_outputLocation c registry project u2 refs es e2 r2 h2
  refine ⟨o1, o2, ?_⟩
  rw [o1, o2]
  intro hcontra
  injection hcontra with hcontra
  exact pathJoin_right_injective c.historicalFeatureOutputLocation hs1 hs2 hne hcontra

/-- Witness for C7: two local-mode calls with fresh ids `aaa` and `bbb`
submit `gs://output/aaa` and `gs://output/bbb`. -/
theorem c7_fresh_output_locations_witness :
    submittedOutputLocation [Effect.localRetrievalJob "proj" "parquet" "gs://output/aaa"] ≠
    submittedOutputLocation [Effect.localRetrievalJob "proj" "parquet" "gs://output/bbb"] := by
  have h1 : getHistoricalFeatures localConfig exampleRegistry "proj" "aaa"
      ["bookings:bookings_7d"] (.fileSource "gs://entities") none =
      ([Effect.localRetrievalJob "proj" "parquet" "gs://output/aaa"], .ok .localJob) := rfl
  have h2 : getHistoricalFeatures localConfig exampleRegistry "proj" "bbb"
      ["bookings:bookings_7d"] (.fileSource "gs://entities") none =
      ([Effect.localRetrievalJob "proj" "parquet" "gs://output/bbb"], .ok .localJob) := rfl
  exact (c7_fresh_output_locations localConfig exampleRegistry "proj"
    ["bookings:bookings_7d"] (.fileSource "gs://entities") "aaa" "bbb" _ _ _ _ h1 h2
    (by decide) (by decide) (by decide)).2.2

/-- C8: for a job id unknown to the backend, `get_job_by_id` surfaces
`NotFoundError` (with the id echoed) in both local and remote mode; it is
never mapped to a placeholder handle. -/
theorem c8_unknown_job_id (c : Config) (backendJobs : List (String × Nat))
    (jobId : String) (hunknown : ∀ kv ∈ backendJobs, kv.1 ≠ jobId) :
    (getJobById c backendJobs jobId).2 = .error (.notFound jobId) := by
  have hfind : backendJobs.find? (fun kv => kv.1 = jobId) = none := by
    apply List.find?_eq_none.mpr
    intro kv hkv
    simp [hunknown kv hkv]
  unfold getJobById launcherGetJobById jobServiceGetJob lookupJob
  cases useJobService c <;> simp [hfind]

/-- Witness for C8: an unknown id fails with `NotFoundError` in remote mode
and in local mode alike. -/
theorem c8_unknown_job_id_witness :
    (getJobById remoteConfig [("job-1", 1)] "unknown-id").2 =
      .error (.notFound "unknown-id") ∧
    (getJobById localConfig [("job-1", 1)] "unknown-id").2 =
      .error (.notFound "unknown-id") := by
  constructor
  · exact c8_unknown_job_id remoteConfig [("job-1", 1)] "unknown-id" (by decide)
  · exact c8_unknown_job_id localConfig [("job-1", 1)] "unknown-id" (by decide)

/-- C9: in remote mode the batch-ingestion request carries the project, the
table name and the start and end timestamps, while the stream-ingestion
request carries only the project and table name; in either mode neither
ingestion operation produces a staging effect. -/
theorem c9_remote_ingestion_requests (c : Config) (project : String)
    (ft : FeatureTable) (s e : Nat) (extraJars : Option (List String))
    (p : Option String) (hremote : c.jobServiceUrl.isSome = true) :
    startOfflineToOnlineIngestion c project ft s e =
      [.rpcOfflineIngestion project ft.name s e] ∧
    startStreamToOnlineIngestion c project ft extraJars p =
      [.rpcStreamIngestion project ft.name] ∧
    (∀ c2 : Config,
      (startOfflineToOnlineIngestion c2 project ft s e).filter isStagingEffect = [] ∧
      (startStreamToOnlineIngestion c2 project ft extraJars p).filter
          isStagingEffect = []) := by
  refine ⟨?_, ?_, ?_⟩
  · simp [startOfflineToOnlineIngestion, useJobService, hremote]
  · simp [startStreamToOnlineIngestion, useJobService, hremote]
  · intro c2
    constructor
    · unfold startOfflineToOnlineIngestion
      cases useJobService c2 <;> rfl
    · unfold startStreamToOnlineIngestion
      cases useJobService c2 <;> rfl

/-- Witness for C9 at concrete remote-mode ingestion calls. -/
theorem c9_remote_ingestion_requests_witness :
    startOfflineToOnlineIngestion remoteConfig "proj" bookingsTable 10 20 =
      [.rpcOfflineIngestion "proj" "bookings" 10 20] ∧
    startStreamToOnlineIngestion remoteConfig "proj" bookingsTable (some ["a.jar"])
        (some "other-proj") = [.rpcStreamIngestion "proj" "bookings"] := by
  have h := c9_remote_ingestion_requests remoteConfig "proj" bookingsTable 10 20
    (some ["a.jar"]) (some "other-proj") rfl
  exact ⟨h.1.trans rfl, h.2.1.trans rfl⟩

/-- C10 counterexample: in local mode a caller-passed empty-string project
does not override the configured project — `project or self._feast.project`
treats `""` as falsy — so the launcher receives the configured project, not
the passed one, refuting the claim that the passed project always overrides. -/
theorem c10_counterexample_empty_project :
    ¬ startStreamToOnlineIngestion localConfig "proj" bookingsTable none (some "") =
      [.localStreamIngestion "" bookingsTable.name []] := by
  decide

/-- C10 (amended): in remote mode `start_stream_to_online_ingestion` ignores
both optional arguments — the request always carries the configured project
and never the extra jars; in local mode the launcher receives
`project or configured` (so a passed project overrides exactly when it is
non-empty, with `None` and `""` falling back to the configured project) and
`extra_jars or []`. -/
theorem c10_amended_stream_ingestion_arguments (c : Config)
    (configuredProject : String) (ft : FeatureTable)
    (extraJars : Option (List String)) (p : Option String) :
    (c.jobServiceUrl.isSome = true →
      startStreamToOnlineIngestion c configuredProject ft extraJars p =
        [.rpcStreamIngestion configuredProject ft.name]) ∧
    (c.jobServiceUrl.isSome = false →
      startStreamToOnlineIngestion c configuredProject ft extraJars p =
        [.localStreamIngestion (pythonOrString p configuredProject) ft.name
           (extraJars.getD [])] ∧
      (∀ s, s ≠ "" → pythonOrString (some s) configuredProject = s) ∧
      pythonOrString none configuredProject = configuredProject ∧
      pythonOrString (some "") configuredProject = configuredProject) := by
  constructor
  · intro hremote
    simp [startStreamToOnlineIngestion, useJobService, hremote]
  · intro hlocal
    refine ⟨by simp [startStreamToOnlineIngestion, useJobService, hlocal], ?_, rfl, rfl⟩
    intro s hs
    simp [pythonOrString, hs]

/-- Witness for C10 (amended): remote mode ignores a different passed project
and extra jars; local mode with a non-empty passed project uses it. -/
theorem c10_amended_stream_ingestion_arguments_witness :
    startStreamToOnlineIngestion remoteConfig "proj" bookingsTable (some ["a.jar"])
        (some "other-proj") = [.rpcStreamIngestion "proj" "bookings"] ∧
    startStreamToOnlineIngestion localConfig "proj" bookingsTable (some ["a.jar"])
        (some "other-proj") =
      [.localStreamIngestion "other-proj" "bookings" ["a.jar"]] := by
  constructor
  · exact ((c10_amended_stream_ingestion_arguments remoteConfig "proj" bookingsTable
      (some ["a.jar"]) (some "other-proj")).1 rfl).trans rfl
  · exact (((c10_amended_stream_ingestion_arguments localConfig "proj" bookingsTable
      (some ["a.jar"]) (some "other-proj")).2 rfl).1).trans rfl

/-- C5: the `_job_service` property is not memoized, contrary to the intended
caching — the guard reads `_job_service_stub` (set to `None` in `__init__`
and never reassigned) while the assignment writes the distinct attribute
`_job_service_service_stub` — so two successive accesses on a fresh client
with the job service configured construct two gRPC channels and return two
distinct stubs. -/
theorem c5_stub_not_cached :
    (jobServiceProperty remoteConfig
        (jobServiceProperty remoteConfig clientInit).1).1.channelsCreated = 2 ∧
    (jobServiceProperty remoteConfig clientInit).2 ≠
      (jobServiceProperty remoteConfig
        (jobServiceProperty remoteConfig clientInit).1).2 := by
  decide

end FeastSpark
